import Mathlib

/-! qiankui-ssh: session registry, rate limiter and session bridge.

A shallow embedding of the Go sources
`internal/middleware/security.go`, `internal/ssh/session.go` and
`internal/handler/handler.go`, followed by the properties proved about them.

Conventions of the embedding.

* Go maps and `sync.Map` are key-unique association lists (`KeyMap`).
* `time.Time` values all come from `time.Now()`, so they carry a monotonic clock
  reading; an instant is that reading in nanoseconds and `Time.Sub` is the
  difference of two readings.
* Calls into libraries (`encoding/json`, `golang.org/x/crypto/ssh`, `uuid`, the
  websocket connection) are parameters of the definitions; the calls a function
  makes are returned as a list of events next to its result.
-/

namespace QkSSH

/-! ## Keyed maps -/

/-- Association list with pairwise distinct keys: the contents of a Go
`map[string]V` or of a `sync.Map` keyed by strings. -/
structure KeyMap (V : Type) where
  entries : List (String × V)
  nodup : (entries.map Prod.fst).Nodup

namespace KeyMap

variable {V : Type}

/-- The map with no entry, as produced by `make(map[string]V)` or by the zero
value of `sync.Map`. -/
def empty : KeyMap V := ⟨[], List.nodup_nil⟩

/-- Lookup on the underlying list: the value of the first entry stored under `key`. -/
def lookupList (key : String) : List (String × V) → Option V
  | [] => none
  | (k, v) :: rest => if k = key then some v else lookupList key rest

/-- Removal on the underlying list: drops the entries stored under `key`. -/
def eraseList (key : String) (l : List (String × V)) : List (String × V) :=
  l.filter (fun p => decide (p.1 ≠ key))

/-- The lookup `m[key]` of a Go map, `m.Load(key)` of a `sync.Map`. -/
def Load (m : KeyMap V) (key : String) : Option V := lookupList key m.entries

/-- The removal `delete(m, key)` of a Go map, `m.Delete(key)` of a `sync.Map`. -/
def Delete (m : KeyMap V) (key : String) : KeyMap V :=
  ⟨eraseList key m.entries, m.nodup.sublist ((List.filter_sublist m.entries).map Prod.fst)⟩

/-- The assignment `m[key] = v` of a Go map, `m.Store(key, v)` of a `sync.Map`:
the value under `key` is replaced, every other entry is kept. -/
def Store (m : KeyMap V) (key : String) (v : V) : KeyMap V :=
  ⟨(key, v) :: eraseList key m.entries, by
    rw [List.map_cons, List.nodup_cons]
    refine ⟨?_, m.nodup.sublist ((List.filter_sublist m.entries).map Prod.fst)⟩
    intro hmem
    obtain ⟨p, hp, hk⟩ := List.mem_map.1 hmem
    have hne := (List.mem_filter.1 hp).2
    simp at hne
    exact hne hk⟩

/-- Iteration over a list of entries with a callback that threads a state and
returns false to stop. -/
def rangeList {σ : Type} (f : String → V → σ → σ × Bool) : List (String × V) → σ → σ
  | [], s => s
  | (k, v) :: rest, s =>
    match f k v s with
    | (s1, true) => rangeList f rest s1
    | (s1, false) => s1

/-- The iteration `m.Range(f)` of a `sync.Map`: `f` is called once for every entry
present when the iteration starts, until it returns false. The state `σ` carries
what the callback mutates. -/
def Range {σ : Type} (m : KeyMap V) (f : String → V → σ → σ × Bool) (init : σ) : σ :=
  rangeList f m.entries init

instance [DecidableEq V] : DecidableEq (KeyMap V) := fun a b =>
  decidable_of_iff (a.entries = b.entries)
    ⟨fun h => by cases a; cases b; cases h; rfl, fun h => by rw [h]⟩

end KeyMap

/-! ## Time -/

/-- An instant returned by `time.Now()`: its monotonic clock reading in nanoseconds. -/
abbrev Time := Nat

/-- A `time.Duration`: a signed count of nanoseconds. -/
abbrev Duration := Int

/-- Two-complement wrap-around of a 64-bit signed result. -/
def wrapInt64 (x : Int) : Int := (x + 2 ^ 63) % 2 ^ 64 - 2 ^ 63

/-- The constant `time.Second`. -/
def Second : Duration := 1000000000

/-- The constant `time.Minute`. -/
def Minute : Duration := 60 * Second

/-- The method `t.Sub(u)` on two instants that carry monotonic readings: the
difference of the readings. Both readings are non-negative 64-bit values, so
the difference is exact: it neither wraps nor saturates. -/
def Time.Sub (t u : Time) : Duration := (t : Int) - (u : Int)

/-! ## Package middleware: the per-source rate limiter -/

namespace middleware

/-- The struct `requestInfo`: the counter of one source key. -/
structure requestInfo where
  count : Int
  firstTime : Time
  deriving DecidableEq, Repr

/-- The struct `RateLimiter` (the mutex is left out: calls are sequential here). -/
structure RateLimiter where
  requests : KeyMap requestInfo
  limit : Int
  window : Duration

/-- The constructor `NewRateLimiter(limit, window)`. -/
def NewRateLimiter (limit : Int) (window : Duration) : RateLimiter :=
  { requests := KeyMap.empty, limit := limit, window := window }

/-- The method `rl.Check(ip)`, with the value of `time.Now()` as the argument `now`.
The map holds pointers in Go, so the assignments to `info.count` and
`info.firstTime` are stores under `ip` here. On the increment `count < limit`
holds, so `count++` does not wrap. -/
def RateLimiter.Check (rl : RateLimiter) (ip : String) (now : Time) : RateLimiter × Bool :=
  match rl.requests.Load ip with
  | none =>
    ({ rl with requests := rl.requests.Store ip { count := 1, firstTime := now } }, true)
  | some info =>
    if Time.Sub now info.firstTime > rl.window then
      ({ rl with requests := rl.requests.Store ip { count := 1, firstTime := now } }, true)
    else if info.count ≥ rl.limit then
      (rl, false)
    else
      ({ rl with requests :=
          rl.requests.Store ip { count := info.count + 1, firstTime := info.firstTime } }, true)

/-- Successive calls `rl.Check(ip)` made at the instants of the list, in order,
with the result of each call. -/
def checkSeq (rl : RateLimiter) (ip : String) : List Time → RateLimiter × List Bool
  | [] => (rl, [])
  | now :: rest =>
    let r := rl.Check ip now
    let rs := checkSeq r.1 ip rest
    (rs.1, r.2 :: rs.2)

/-- The limiter that `main` installs in front of `/connect`:
`middleware.NewRateLimiter(10, time.Minute)`. -/
def connectRateLimiter : RateLimiter := NewRateLimiter 10 Minute

/-- Twenty requests of one source: one at the instant 0, nine at the end of the
minute that it opens, ten one nanosecond later. -/
def burstTimes : List Time :=
  0 :: (List.replicate 9 60000000000 ++ List.replicate 10 60000000001)

/-- The number of calls, among those made at `times` with the verdicts `results`,
that were admitted at an instant of the closed interval from `a` to `b`. -/
def admittedIn (a b : Time) (times : List Time) (results : List Bool) : Nat :=
  (times.zip results).countP (fun p => p.2 && decide (a ≤ p.1) && decide (p.1 ≤ b))

/-- The per-key transition of `checkRate` as the specification words it: the
record of the key before the request and the current time give the record after
the request and the verdict. -/
def checkRateSpec (limit : Int) (window : Duration) (now : Time) :
    Option requestInfo → Option requestInfo × Bool
  | none => (some { count := 1, firstTime := now }, true)
  | some r =>
    if (now : Int) - (r.firstTime : Int) > window then
      (some { count := 1, firstTime := now }, true)
    else if r.count ≥ limit then
      (some r, false)
    else
      (some { count := r.count + 1, firstTime := r.firstTime }, true)

end middleware

/-! ## Package ssh: the remote-shell session -/

namespace ssh

/-- An operating-system resource held through a library object (a connection, a
channel, a pipe end, a parsed key). A nil pointer is `none` of `Option Handle`. -/
abbrev Handle := Nat

/-- A byte slice. -/
abbrev Bytes := List UInt8

/-- The conversion `[]byte(s)` of a string. -/
def bytesOf (s : String) : Bytes := s.toUTF8.data.toList

/-- The constant `defaultBufferSize`. -/
def defaultBufferSize : Int := 32 * 1024

/-- The struct `SessionConfig`. -/
structure SessionConfig where
  Hostname : String
  Port : Int
  Username : String
  Password : String
  PrivateKey : String
  Passphrase : String
  Timeout : Duration
  BufferSize : Int
  deriving DecidableEq, Repr

/-- The struct `Session` (the mutex `closeMux` is left out: calls are sequential
here). The field `session` is the channel, `client` the transport connection. -/
structure Session where
  ID : String
  client : Option Handle
  session : Option Handle
  stdin : Option Handle
  stdout : Option Handle
  stderr : Option Handle
  closed : Bool
  bufferSize : Int
  deriving DecidableEq, Repr

/-- The authentication methods that `NewSession` builds. The keyboard-interactive
callback answers every question with the password it captured. -/
inductive AuthMethod
  | PublicKeys (signer : Handle)
  | Password (password : String)
  | KeyboardInteractive (password : String)
  deriving DecidableEq, Repr

/-- The answers of the keyboard-interactive callback built for `password`. -/
def keyboardInteractiveAnswers (password : String) (questions : List String) : List String :=
  questions.map (fun _ => password)

/-- The `ssh.ClientConfig` that `NewSession` builds; the host key callback is
always `ssh.InsecureIgnoreHostKey()`. -/
structure ClientConfig where
  User : String
  Auth : List AuthMethod
  Timeout : Duration
  deriving DecidableEq, Repr

/-- The struct `ResizeMessage`. -/
structure ResizeMessage where
  Cols : Int
  Rows : Int
  deriving DecidableEq, Repr

/-- The struct `InputMessage`. -/
structure InputMessage where
  /-- The field `Type` (a reserved word here). -/
  Type_ : String
  Data : String
  Resize : ResizeMessage
  deriving DecidableEq, Repr

/-- The constant `websocket.TextMessage`. -/
def TextMessage : Int := 1

/-- The constant `websocket.BinaryMessage`. -/
def BinaryMessage : Int := 2

/-- One successful result of `conn.ReadMessage()`. -/
structure Frame where
  msgType : Int
  msg : Bytes
  deriving DecidableEq, Repr

/-- The terminal modes that `StartShell` requests: `ssh.ECHO` (53) set to 1,
`ssh.TTY_OP_ISPEED` (128) and `ssh.TTY_OP_OSPEED` (129) set to 14400. -/
def terminalModes : List (Nat × Nat) := [(53, 1), (128, 14400), (129, 14400)]

/-- The library calls the package makes, as functions of their arguments. An
error result carries the text of the error. -/
structure Lib where
  ParsePrivateKey : String → Except String Handle
  ParsePrivateKeyWithPassphrase : String → String → Except String Handle
  Dial : String → String → ClientConfig → Except String Handle
  /-- The value of `uuid.New().String()`. -/
  newUUID : String
  /-- The call `client.NewSession()`. -/
  clientNewSession : Handle → Except String Handle
  /-- The call `session.RequestPty(term, h, w, modes)`; `none` is a nil error. -/
  RequestPty : Handle → String → Int → Int → List (Nat × Nat) → Option String
  StdinPipe : Handle → Except String Handle
  StdoutPipe : Handle → Except String Handle
  StderrPipe : Handle → Except String Handle
  /-- The call `session.Shell()`; `none` is a nil error. -/
  Shell : Handle → Option String
  /-- The call `json.Unmarshal(msg, &input)`; `none` is a non-nil error. -/
  Unmarshal : Bytes → Option InputMessage
  /-- Whether the write of the frame read at position `n` returns a nil error. -/
  stdinWriteOk : Nat → Bytes → Bool

/-- A call into the ssh library made by `NewSession`. -/
inductive LibCall
  | ParsePrivateKey (pem : String)
  | ParsePrivateKeyWithPassphrase (pem passphrase : String)
  | Dial (network addr : String) (config : ClientConfig)
  deriving DecidableEq, Repr

/-- The private-key branch of `NewSession`: the authentication methods after it,
or the error it returns, with the library calls made. -/
def privateKeyAuth (lib : Lib) (cfg : SessionConfig) :
    Except String (List AuthMethod) × List LibCall :=
  if cfg.PrivateKey ≠ "" then
    let parsed : Except String Handle × List LibCall :=
      if cfg.Passphrase ≠ "" then
        (lib.ParsePrivateKeyWithPassphrase cfg.PrivateKey cfg.Passphrase,
          [LibCall.ParsePrivateKeyWithPassphrase cfg.PrivateKey cfg.Passphrase])
      else
        (lib.ParsePrivateKey cfg.PrivateKey, [LibCall.ParsePrivateKey cfg.PrivateKey])
    match parsed.1 with
    | .error err => (.error ("解析私钥失败: " ++ err), parsed.2)
    | .ok signer => (.ok [AuthMethod.PublicKeys signer], parsed.2)
  else
    (.ok [], [])

/-- The function `NewSession(cfg)`: the session or the error, and the library
calls made, in order. -/
def NewSession (lib : Lib) (cfg : SessionConfig) : Except String Session × List LibCall :=
  let bufSize := if cfg.BufferSize ≤ 0 then defaultBufferSize else cfg.BufferSize
  match privateKeyAuth lib cfg with
  | (.error err, calls) => (.error err, calls)
  | (.ok keyMethods, calls) =>
    let authMethods :=
      if cfg.Password ≠ "" then
        keyMethods ++
          [AuthMethod.Password cfg.Password, AuthMethod.KeyboardInteractive cfg.Password]
      else keyMethods
    if authMethods.length = 0 then
      (.error "需要提供密码或私钥", calls)
    else
      let sshConfig : ClientConfig :=
        { User := cfg.Username, Auth := authMethods, Timeout := cfg.Timeout }
      let addr := cfg.Hostname ++ ":" ++ toString cfg.Port
      match lib.Dial "tcp" addr sshConfig with
      | .error err => (.error ("连接失败: " ++ err), calls ++ [LibCall.Dial "tcp" addr sshConfig])
      | .ok client =>
        (.ok { ID := lib.newUUID, client := some client, session := none, stdin := none,
               stdout := none, stderr := none, closed := false, bufferSize := bufSize },
          calls ++ [LibCall.Dial "tcp" addr sshConfig])

/-- How a call of `StartShell` ends: a nil error, an error, or the nil pointer
dereference of `s.client.NewSession()` on a session without client. -/
inductive ShellResult
  | ok
  | error (msg : String)
  | nilDereference
  deriving DecidableEq, Repr

/-- The method `s.StartShell()`: the session after the call and how the call ends. -/
def Session.StartShell (lib : Lib) (s : Session) : Session × ShellResult :=
  match s.client with
  | none => (s, .nilDereference)
  | some client =>
    match lib.clientNewSession client with
    | .error err => (s, .error ("创建会话失败: " ++ err))
    | .ok session =>
      let s1 := { s with session := some session }
      match lib.RequestPty session "xterm-256color" 24 80 terminalModes with
      | some err => (s1, .error ("请求 PTY 失败: " ++ err))
      | none =>
        match lib.StdinPipe session with
        | .error err => ({ s1 with stdin := none }, .error ("获取 stdin 失败: " ++ err))
        | .ok stdin =>
          let s2 := { s1 with stdin := some stdin }
          match lib.StdoutPipe session with
          | .error err => ({ s2 with stdout := none }, .error ("获取 stdout 失败: " ++ err))
          | .ok stdout =>
            let s3 := { s2 with stdout := some stdout }
            match lib.StderrPipe session with
            | .error err => ({ s3 with stderr := none }, .error ("获取 stderr 失败: " ++ err))
            | .ok stderr =>
              let s4 := { s3 with stderr := some stderr }
              match lib.Shell session with
              | some err => (s4, .error ("启动 shell 失败: " ++ err))
              | none => (s4, .ok)

/-- The release of one handle by `Close`. -/
inductive Release
  | stdin (h : Handle)
  | session (h : Handle)
  | client (h : Handle)
  deriving DecidableEq, Repr

/-- The method `s.Close()`: the session after the call and the handles it
closes, in order. -/
def Session.Close (s : Session) : Session × List Release :=
  if s.closed then
    (s, [])
  else
    ({ s with closed := true },
      (match s.stdin with
        | some h => [Release.stdin h]
        | none => []) ++
      (match s.session with
        | some h => [Release.session h]
        | none => []) ++
      (match s.client with
        | some h => [Release.client h]
        | none => []))

/-- Successive calls of `s.Close()`, `n` of them: the session after the last
one and all the handles closed, in order. -/
def Session.closeTimes : Nat → Session → Session × List Release
  | 0, s => (s, [])
  | n + 1, s =>
    let r := s.Close
    let rs := Session.closeTimes n r.1
    (rs.1, r.2 ++ rs.2)

/-- What the read loop of `HandleWebSocket` does to the channel and the input sink. -/
inductive BridgeEvent
  /-- The call `s.session.WindowChange(rows, cols)`. -/
  | WindowChange (channel : Handle) (rows cols : Int)
  /-- The call `s.stdin.Write(msg)`, with the value of `s.stdin`. -/
  | stdinWrite (sink : Option Handle) (msg : Bytes)
  deriving DecidableEq, Repr

/-- One turn of the read loop of `HandleWebSocket` on the frame read at position
`n`: the calls made and whether the loop goes on. A write on a nil `s.stdin`
ends the loop as a failed write does. -/
def Session.handleFrame (lib : Lib) (s : Session) (n : Nat) (f : Frame) :
    List BridgeEvent × Bool :=
  let write (msg : Bytes) : List BridgeEvent × Bool :=
    ([BridgeEvent.stdinWrite s.stdin msg], s.stdin.isSome && lib.stdinWriteOk n msg)
  if f.msgType = TextMessage then
    match lib.Unmarshal f.msg with
    | some input =>
      if input.Type_ = "resize" then
        match s.session with
        | some channel =>
          ([BridgeEvent.WindowChange channel input.Resize.Rows input.Resize.Cols], true)
        | none => ([], true)
      else if input.Type_ = "data" then
        write (bytesOf input.Data)
      else
        write f.msg
    | none => write f.msg
  else
    write f.msg

/-- The read loop of `HandleWebSocket` over the frames that `ReadMessage`
returns before its first error, the first of them read at position `n`. -/
def Session.readLoop (lib : Lib) (s : Session) : Nat → List Frame → List BridgeEvent
  | _, [] => []
  | n, f :: rest =>
    match Session.handleFrame lib s n f with
    | (events, true) => events ++ Session.readLoop lib s (n + 1) rest
    | (events, false) => events

/-- The method `s.HandleWebSocket(conn)` for a connection that delivers `frames`
and then fails to read: the calls of the read loop, then the deferred `Close`.
The two goroutines that copy the output and error streams to the connection are
not part of this embedding. -/
def Session.HandleWebSocket (lib : Lib) (s : Session) (frames : List Frame) :
    Session × List BridgeEvent × List Release :=
  let events := Session.readLoop lib s 0 frames
  let closed := s.Close
  (closed.1, events, closed.2)

/-! ### A concrete library, to evaluate the definitions on examples -/

/-- The text of a resize control frame, rows 40 and columns 120. -/
def resizeText : String :=
  "\x7b\"type\":\"resize\",\"resize\":\x7b\"rows\":40,\"cols\":120\x7d\x7d"

/-- The text of a data control frame carrying a command line. -/
def dataText : String := "\x7b\"type\":\"data\",\"data\":\"echo hi\\n\"\x7d"

/-- A library in which every call succeeds: keys parse, the dial returns the
connection 1, the channel is 2 and its pipes 3, 4, 5, every write succeeds, and
the two control frames `resizeText` and `dataText` decode. -/
def sampleLib : Lib where
  ParsePrivateKey := fun _ => .ok 9
  ParsePrivateKeyWithPassphrase := fun _ _ => .ok 9
  Dial := fun _ _ _ => .ok 1
  newUUID := "3f2c9a52-7a0e-4d0c-9a51-0c1d2e3f4a5b"
  clientNewSession := fun _ => .ok 2
  RequestPty := fun _ _ _ _ _ => none
  StdinPipe := fun _ => .ok 3
  StdoutPipe := fun _ => .ok 4
  StderrPipe := fun _ => .ok 5
  Shell := fun _ => none
  Unmarshal := fun msg =>
    if msg = bytesOf resizeText then
      some { Type_ := "resize", Data := "", Resize := { Cols := 120, Rows := 40 } }
    else if msg = bytesOf dataText then
      some { Type_ := "data", Data := "echo hi\n", Resize := { Cols := 0, Rows := 0 } }
    else none
  stdinWriteOk := fun _ _ => true

/-- A session as `NewSession` returns it under `sampleLib`. -/
def sampleSession : Session :=
  { ID := "3f2c9a52-7a0e-4d0c-9a51-0c1d2e3f4a5b", client := some 1, session := none,
    stdin := none, stdout := none, stderr := none, closed := false, bufferSize := 32768 }

/-- The session `sampleSession` after a successful `StartShell` under `sampleLib`. -/
def startedSession : Session :=
  { sampleSession with session := some 2, stdin := some 3, stdout := some 4, stderr := some 5 }

end ssh

/-! ## Package config -/

namespace config

/-- The struct `Config`. -/
structure Config where
  Address : String
  Port : Int
  Timeout : Int
  MaxConn : Int
  BufferSize : Int
  AllowOrigins : String
  Debug : Bool
  Version : Bool
  deriving DecidableEq, Repr

end config

/-! ## Package handler: the session registry and its endpoints -/

namespace handler

/-- The struct `sessionEntry`. -/
structure sessionEntry where
  session : ssh.Session
  createdAt : Time
  deriving DecidableEq, Repr

/-- The struct `Handler`: the configuration and the registry `sessions`. -/
structure Handler where
  cfg : config.Config
  sessions : KeyMap sessionEntry
  deriving DecidableEq

/-- What one pass of the session cleaner does besides logging. -/
inductive CleanerEvent
  /-- The call `entry.session.Close()` on the entry stored under `key`, with the
  handles it closes. -/
  | Close (key : String) (releases : List ssh.Release)
  /-- The call `h.sessions.Delete(key)`. -/
  | Delete (key : String)
  deriving DecidableEq, Repr

/-- The test `now.Sub(entry.createdAt) > 30*time.Second` of the session cleaner. -/
def sessionExpired (now : Time) (entry : sessionEntry) : Bool :=
  decide (Time.Sub now entry.createdAt > 30 * Second)

/-- The callback that the session cleaner passes to `h.sessions.Range`, for the
pass made at `now`. Its state is the registry and the calls made so far. -/
def cleanerVisit (now : Time) (key : String) (entry : sessionEntry)
    (st : KeyMap sessionEntry × List CleanerEvent) :
    (KeyMap sessionEntry × List CleanerEvent) × Bool :=
  if sessionExpired now entry then
    ((st.1.Delete key,
      st.2 ++ [CleanerEvent.Close key entry.session.Close.2, CleanerEvent.Delete key]), true)
  else
    (st, true)

/-- One turn of the loop of `startSessionCleaner`, for the tick at which
`time.Now()` is `now`: the handler after the pass and the calls made, in order. -/
def Handler.sessionCleanerPass (h : Handler) (now : Time) : Handler × List CleanerEvent :=
  let r := h.sessions.Range (cleanerVisit now) (h.sessions, [])
  ({ h with sessions := r.1 }, r.2)

/-- The method `h.startSessionCleaner()` over the ticks of the list: one pass per tick. -/
def Handler.startSessionCleaner (h : Handler) : List Time → Handler × List CleanerEvent
  | [] => (h, [])
  | now :: ticks =>
    let r := h.sessionCleanerPass now
    let rs := Handler.startSessionCleaner r.1 ticks
    (rs.1, r.2 ++ rs.2)

/-- The struct `ConnectRequest`. -/
structure ConnectRequest where
  Hostname : String
  Port : Int
  Username : String
  Password : String
  PrivateKey : String
  Passphrase : String
  deriving DecidableEq, Repr

/-- The struct `ConnectResponse`; the empty string is an omitted field. -/
structure ConnectResponse where
  Success : Bool
  SessionID : String
  Message : String
  deriving DecidableEq, Repr

/-- A call of `ssh.NewSession` made by `Connect`, with the library calls it makes. -/
inductive ConnectEvent
  | NewSession (cfg : ssh.SessionConfig) (calls : List ssh.LibCall)
  deriving DecidableEq, Repr

/-- The port check of `Connect`: the port to use, or `none` when the request is
refused. -/
def checkPort (port : Int) : Option Int :=
  if port = 0 then some 22
  else if port < 1 ∨ port > 65535 then none
  else some port

/-- The number of entries that `Connect` counts with `h.sessions.Range`. -/
def Handler.connCount (h : Handler) : Int :=
  h.sessions.Range (fun _ _ (n : Int) => (n + 1, true)) 0

/-- The method `h.Connect(c)`. The argument `body` is the result of
`c.BodyParser(&req)` (`none` when it fails) and `now` the value of `time.Now()`
at the store. The result is the handler after the call, the response written and
the calls of `ssh.NewSession` made. -/
def Handler.Connect (lib : ssh.Lib) (now : Time) (h : Handler) (body : Option ConnectRequest) :
    Handler × ConnectResponse × List ConnectEvent :=
  match body with
  | none => (h, { Success := false, SessionID := "", Message := "请求参数错误" }, [])
  | some req =>
    if req.Hostname = "" then
      (h, { Success := false, SessionID := "", Message := "主机地址不能为空" }, [])
    else if req.Username = "" then
      (h, { Success := false, SessionID := "", Message := "用户名不能为空" }, [])
    else
      match checkPort req.Port with
      | none =>
        (h, { Success := false, SessionID := "", Message := "端口范围无效 (1-65535)" }, [])
      | some port =>
        if h.connCount ≥ h.cfg.MaxConn then
          (h, { Success := false, SessionID := "", Message := "连接数已达上限" }, [])
        else
          let cfg : ssh.SessionConfig :=
            { Hostname := req.Hostname, Port := port, Username := req.Username,
              Password := req.Password, PrivateKey := req.PrivateKey,
              Passphrase := req.Passphrase,
              Timeout := wrapInt64 (h.cfg.Timeout * Second),
              BufferSize := h.cfg.BufferSize }
          match ssh.NewSession lib cfg with
          | (.error _, calls) =>
            (h, { Success := false, SessionID := "", Message := "连接失败，请检查地址和凭据" },
              [ConnectEvent.NewSession cfg calls])
          | (.ok session, calls) =>
            ({ h with sessions :=
                h.sessions.Store session.ID { session := session, createdAt := now } },
              { Success := true, SessionID := session.ID, Message := "" },
              [ConnectEvent.NewSession cfg calls])

/-- What `WebSocket` does to the connection and to the session it claims. -/
inductive WsEvent
  /-- The call `c.WriteMessage(messageType, []byte(text))`. -/
  | WriteMessage (messageType : Int) (text : String)
  /-- The call `c.Close()`. -/
  | connClose
  /-- The call `entry.session.StartShell()` and how it ends. -/
  | StartShell (id : String) (result : ssh.ShellResult)
  /-- The call `entry.session.Close()`, with the handles it closes. -/
  | sessionClose (id : String) (releases : List ssh.Release)
  /-- The call `entry.session.HandleWebSocket(c)`, with the calls of its read loop
  and the handles its deferred `Close` closes. -/
  | HandleWebSocket (id : String) (events : List ssh.BridgeEvent)
      (releases : List ssh.Release)
  deriving DecidableEq, Repr

/-- The method `h.WebSocket(c)` for a connection whose query parameter
`session_id` is `sessionID` and which delivers `frames` before its first read
error: the handler after the call and the calls made, in order. -/
def Handler.WebSocket (lib : ssh.Lib) (frames : List ssh.Frame) (h : Handler)
    (sessionID : String) : Handler × List WsEvent :=
  if sessionID = "" then
    (h, [WsEvent.WriteMessage ssh.TextMessage "错误: 缺少 session_id", WsEvent.connClose])
  else
    match h.sessions.Load sessionID with
    | none =>
      (h, [WsEvent.WriteMessage ssh.TextMessage "错误: 会话不存在或已过期", WsEvent.connClose])
    | some entry =>
      let h1 := { h with sessions := h.sessions.Delete sessionID }
      match entry.session.StartShell lib with
      | (s, .ok) =>
        let r := s.HandleWebSocket lib frames
        (h1, [WsEvent.StartShell s.ID .ok, WsEvent.HandleWebSocket s.ID r.2.1 r.2.2])
      | (s, .error msg) =>
        (h1, [WsEvent.StartShell s.ID (.error msg),
              WsEvent.WriteMessage ssh.TextMessage "错误: 启动终端失败",
              WsEvent.connClose,
              WsEvent.sessionClose s.ID s.Close.2])
      | (s, .nilDereference) =>
        (h1, [WsEvent.StartShell s.ID .nilDereference])

/-- A request served by the handler. -/
inductive Request
  /-- A call of `Connect` with its library, its clock reading and its parsed body. -/
  | connect (lib : ssh.Lib) (now : Time) (body : Option ConnectRequest)
  /-- A call of `WebSocket` with its library, its inbound frames and its `session_id`. -/
  | attach (lib : ssh.Lib) (frames : List ssh.Frame) (sessionID : String)
  /-- A pass of the session cleaner at `now`. -/
  | clean (now : Time)

/-- The handler after serving one request. -/
def Handler.serve (h : Handler) : Request → Handler
  | .connect lib now body => (h.Connect lib now body).1
  | .attach lib frames sessionID => (h.WebSocket lib frames sessionID).1
  | .clean now => (h.sessionCleanerPass now).1

/-- The handler after serving the requests of the list one after the other. -/
def Handler.serveAll (h : Handler) : List Request → Handler
  | [] => h
  | r :: rest => Handler.serveAll (h.serve r) rest

/-- Whether a request can store an entry under `id`: only `Connect` stores, under
the identifier that `generateSessionID` returns. -/
def Request.storesUnder (id : String) : Request → Prop
  | .connect lib _ _ => lib.newUUID = id
  | .attach _ _ _ => False
  | .clean _ => False

/-! ### Two attaches running concurrently

Each access to the `sync.Map` is atomic; between two accesses of one goroutine
the other goroutine may run. -/

/-- Where one goroutine running `WebSocket` stands with respect to the registry. -/
inductive AttachPoint
  /-- Before `h.sessions.Load(sessionID)`. -/
  | beforeLoad
  /-- After a successful `Load`, before `h.sessions.Delete(sessionID)`. -/
  | loaded (entry : sessionEntry)
  /-- After `Delete`: the goroutine goes on to `StartShell` with the entry. -/
  | obtained (entry : sessionEntry)
  /-- The not-found branch was taken. -/
  | notFound
  /-- The branch of the empty `session_id` was taken. -/
  | missingID
  deriving DecidableEq, Repr

/-- The next registry access of a goroutine running `WebSocket` with `sessionID`. -/
def attachStep (sessionID : String) (sessions : KeyMap sessionEntry) :
    AttachPoint → KeyMap sessionEntry × AttachPoint
  | .beforeLoad =>
    if sessionID = "" then (sessions, .missingID)
    else
      match sessions.Load sessionID with
      | none => (sessions, .notFound)
      | some entry => (sessions, .loaded entry)
  | .loaded entry => (sessions.Delete sessionID, .obtained entry)
  | p => (sessions, p)

/-- The registry and the two goroutines. -/
structure AttachPair where
  sessions : KeyMap sessionEntry
  first : AttachPoint
  second : AttachPoint
  deriving DecidableEq

/-- Two goroutines running `WebSocket` with the same `sessionID` under a
schedule: `false` lets the first goroutine make its next access, `true` the second. -/
def runAttachPair (sessionID : String) : List Bool → AttachPair → AttachPair
  | [], st => st
  | false :: rest, st =>
    let r := attachStep sessionID st.sessions st.first
    runAttachPair sessionID rest { st with sessions := r.1, first := r.2 }
  | true :: rest, st =>
    let r := attachStep sessionID st.sessions st.second
    runAttachPair sessionID rest { st with sessions := r.1, second := r.2 }

/-! ### A concrete handler, to evaluate the definitions on examples -/

/-- The configuration of the command-line defaults. -/
def sampleConfig : config.Config :=
  { Address := "0.0.0.0", Port := 8888, Timeout := 10, MaxConn := 100, BufferSize := 32768,
    AllowOrigins := "*", Debug := false, Version := false }

/-- An entry created at `createdAt` for a connected session that is not started. -/
def sampleEntry (id : String) (client : ssh.Handle) (createdAt : Time) : sessionEntry :=
  { session := { ssh.sampleSession with ID := id, client := some client },
    createdAt := createdAt }

/-- A handler with two pending sessions: "s1" created at the instant 0 and "s2"
created 20 seconds later. -/
def sampleHandler : Handler :=
  { cfg := sampleConfig,
    sessions :=
      ⟨[("s1", sampleEntry "s1" 1 0), ("s2", sampleEntry "s2" 6 20000000000)], by decide⟩ }

/-- A well-formed request with the port left out. -/
def sampleRequest : ConnectRequest :=
  { Hostname := "example.org", Port := 0, Username := "root", Password := "pw",
    PrivateKey := "", Passphrase := "" }

end handler

/-! ## Lemmas on keyed maps -/

namespace KeyMap

variable {V : Type}

theorem lookupList_eraseList_self (key : String) (l : List (String × V)) :
    lookupList key (eraseList key l) = none := by
  induction l with
  | nil => rfl
  | cons p rest ih =>
    obtain ⟨k, v⟩ := p
    by_cases hk : k = key
    · simpa [eraseList, hk] using ih
    · simpa [eraseList, hk, lookupList] using ih

theorem lookupList_eraseList_ne {key other : String} (hne : other ≠ key)
    (l : List (String × V)) :
    lookupList other (eraseList key l) = lookupList other l := by
  induction l with
  | nil => rfl
  | cons p rest ih =>
    obtain ⟨k, v⟩ := p
    by_cases hk : k = key
    · have hko : ¬ k = other := fun h => hne (h ▸ hk)
      have hstep : eraseList key ((k, v) :: rest) = eraseList key rest := by
        simp [eraseList, hk]
      rw [hstep, ih]
      simp [lookupList, hko]
    · have hstep : eraseList key ((k, v) :: rest) = (k, v) :: eraseList key rest := by
        simp [eraseList, hk]
      rw [hstep]
      simp only [lookupList, ih]

theorem Load_Delete_self (m : KeyMap V) (key : String) : (m.Delete key).Load key = none :=
  lookupList_eraseList_self key m.entries

theorem Load_Delete_ne (m : KeyMap V) {key other : String} (hne : other ≠ key) :
    (m.Delete key).Load other = m.Load other :=
  lookupList_eraseList_ne hne m.entries

theorem Load_Delete_of_none (m : KeyMap V) (key other : String)
    (h : m.Load other = none) : (m.Delete key).Load other = none := by
  by_cases hne : other = key
  · rw [hne]; exact Load_Delete_self m key
  · rw [Load_Delete_ne m hne]; exact h

theorem Load_Store_self (m : KeyMap V) (key : String) (v : V) :
    (m.Store key v).Load key = some v := by
  simp [Store, Load, lookupList]

theorem Load_Store_ne (m : KeyMap V) {key other : String} (hne : other ≠ key) (v : V) :
    (m.Store key v).Load other = m.Load other := by
  have hko : key ≠ other := fun h => hne h.symm
  simp only [Store, Load, lookupList, hko, if_false]
  exact lookupList_eraseList_ne hne m.entries

end KeyMap

/-! ## The rate limiter -/

namespace middleware

theorem Check_limit (rl : RateLimiter) (ip : String) (now : Time) :
    (rl.Check ip now).1.limit = rl.limit := by
  unfold RateLimiter.Check
  split
  · rfl
  · split_ifs <;> rfl

theorem Check_window (rl : RateLimiter) (ip : String) (now : Time) :
    (rl.Check ip now).1.window = rl.window := by
  unfold RateLimiter.Check
  split
  · rfl
  · split_ifs <;> rfl

theorem Check_other (rl : RateLimiter) (ip : String) (now : Time) {other : String}
    (hne : other ≠ ip) :
    (rl.Check ip now).1.requests.Load other = rl.requests.Load other := by
  unfold RateLimiter.Check
  split
  · exact KeyMap.Load_Store_ne _ hne _
  · split_ifs
    · exact KeyMap.Load_Store_ne _ hne _
    · rfl
    · exact KeyMap.Load_Store_ne _ hne _

/-- The record and the verdict of `Check` on a key without record. -/
theorem Check_of_none {rl : RateLimiter} {ip : String} (now : Time)
    (h : rl.requests.Load ip = none) :
    (rl.Check ip now).1.requests.Load ip = some { count := 1, firstTime := now } ∧
      (rl.Check ip now).2 = true := by
  unfold RateLimiter.Check
  rw [h]
  exact ⟨KeyMap.Load_Store_self _ _ _, rfl⟩

/-- The record and the verdict of `Check` on a key whose window has run out. -/
theorem Check_of_expired {rl : RateLimiter} {ip : String} {info : requestInfo} (now : Time)
    (h : rl.requests.Load ip = some info) (hexp : Time.Sub now info.firstTime > rl.window) :
    (rl.Check ip now).1.requests.Load ip = some { count := 1, firstTime := now } ∧
      (rl.Check ip now).2 = true := by
  unfold RateLimiter.Check
  rw [h]
  dsimp only
  rw [if_pos hexp]
  exact ⟨KeyMap.Load_Store_self _ _ _, rfl⟩

/-- The record and the verdict of `Check` inside the window, limit reached. -/
theorem Check_of_full {rl : RateLimiter} {ip : String} {info : requestInfo} (now : Time)
    (h : rl.requests.Load ip = some info) (hin : ¬ Time.Sub now info.firstTime > rl.window)
    (hfull : info.count ≥ rl.limit) :
    rl.Check ip now = (rl, false) := by
  unfold RateLimiter.Check
  rw [h]
  dsimp only
  rw [if_neg hin, if_pos hfull]

/-- The record and the verdict of `Check` inside the window, limit not reached. -/
theorem Check_of_room {rl : RateLimiter} {ip : String} {info : requestInfo} (now : Time)
    (h : rl.requests.Load ip = some info) (hin : ¬ Time.Sub now info.firstTime > rl.window)
    (hroom : ¬ info.count ≥ rl.limit) :
    (rl.Check ip now).1.requests.Load ip =
        some { count := info.count + 1, firstTime := info.firstTime } ∧
      (rl.Check ip now).2 = true := by
  unfold RateLimiter.Check
  rw [h]
  dsimp only
  rw [if_neg hin, if_neg hroom]
  exact ⟨KeyMap.Load_Store_self _ _ _, rfl⟩

/-- C3: `RateLimiter.Check` is the per-key transition of the specification. For
every limiter state, key and current time, the record of the key after the call
and the verdict are those of `checkRateSpec` applied to the record before the
call (no record: count 1, start now, admitted; window run out: count 1, start
now, admitted; limit reached: record unchanged, rejected; otherwise count plus
one, same start, admitted), the record of every other key is unchanged, and so
are the limit and the window. -/
theorem Check_refines_checkRateSpec (rl : RateLimiter) (ip : String) (now : Time) :
    ((rl.Check ip now).1.requests.Load ip, (rl.Check ip now).2) =
        checkRateSpec rl.limit rl.window now (rl.requests.Load ip) ∧
      (∀ other : String, other ≠ ip →
        (rl.Check ip now).1.requests.Load other = rl.requests.Load other) ∧
      (rl.Check ip now).1.limit = rl.limit ∧
      (rl.Check ip now).1.window = rl.window := by
  refine ⟨?_, fun other hne => Check_other rl ip now hne, Check_limit rl ip now,
    Check_window rl ip now⟩
  cases hrec : rl.requests.Load ip with
  | none =>
    obtain ⟨h1, h2⟩ := Check_of_none now hrec
    rw [h1, h2]; rfl
  | some info =>
    by_cases hexp : Time.Sub now info.firstTime > rl.window
    · obtain ⟨h1, h2⟩ := Check_of_expired now hrec hexp
      rw [h1, h2]
      have hexp2 : (now : Int) - (info.firstTime : Int) > rl.window := hexp
      simp only [checkRateSpec, hexp2, if_true]
    · have hexp2 : ¬ (now : Int) - (info.firstTime : Int) > rl.window := hexp
      by_cases hfull : info.count ≥ rl.limit
      · rw [Check_of_full now hrec hexp hfull]
        simp only [checkRateSpec, hexp2, hfull, if_true, if_false, hrec]
      · obtain ⟨h1, h2⟩ := Check_of_room now hrec hexp hfull
        rw [h1, h2]
        simp only [checkRateSpec, hexp2, hfull, if_false]

/-- Witness of C3 on the limiter of `/connect`: the first request of a source
opens a window with count 1 and is admitted, and the record of another source
stays absent. -/
theorem Check_refines_checkRateSpec_witness :
    ((connectRateLimiter.Check "10.0.0.1" 7).1.requests.Load "10.0.0.1",
        (connectRateLimiter.Check "10.0.0.1" 7).2) =
        (some { count := 1, firstTime := 7 }, true) ∧
      (connectRateLimiter.Check "10.0.0.1" 7).1.requests.Load "10.0.0.2" = none :=
  ⟨(Check_refines_checkRateSpec connectRateLimiter "10.0.0.1" 7).1,
    (Check_refines_checkRateSpec connectRateLimiter "10.0.0.1" 7).2.1 "10.0.0.2" (by decide)⟩

/-- Inside one window the call number `k` (from zero) on a record of count `c` is
admitted exactly when `c + k < limit`. -/
theorem checkSeq_within (ip : String) (start : Time) :
    ∀ (ts : List Time) (rl : RateLimiter) (c : Int),
      rl.requests.Load ip = some { count := c, firstTime := start } →
      (∀ t ∈ ts, Time.Sub t start ≤ rl.window) →
      ∀ k : Nat, k < ts.length →
        (checkSeq rl ip ts).2[k]? = some (decide (c + (k : Int) + 1 ≤ rl.limit)) := by
  intro ts
  induction ts with
  | nil => intro rl c _ _ k hk; simp at hk
  | cons t rest ih =>
    intro rl c hrec hwin k hk
    have hin : ¬ Time.Sub t start > rl.window := not_lt.2 (hwin t (List.mem_cons_self t rest))
    have hrest : ∀ u ∈ rest, Time.Sub u start ≤ rl.window :=
      fun u hu => hwin u (List.mem_cons_of_mem t hu)
    by_cases hfull : c ≥ rl.limit
    · have hC : rl.Check ip t = (rl, false) := Check_of_full t hrec hin hfull
      cases k with
      | zero =>
        simp only [checkSeq, hC, List.getElem?_cons_zero, Option.some.injEq]
        symm; apply decide_eq_false; push_cast; omega
      | succ j =>
        have hj : j < rest.length := by simpa using hk
        simp only [checkSeq, hC, List.getElem?_cons_succ]
        rw [ih rl c hrec hrest j hj]
        congr 1
        apply decide_eq_decide.2
        push_cast
        constructor <;> intro h <;> omega
    · obtain ⟨h1, h2⟩ := Check_of_room t hrec hin hfull
      cases k with
      | zero =>
        simp only [checkSeq, h2, List.getElem?_cons_zero, Option.some.injEq]
        symm; apply decide_eq_true; push_cast; omega
      | succ j =>
        have hj : j < rest.length := by simpa using hk
        simp only [checkSeq, List.getElem?_cons_succ]
        have hrest2 : ∀ u ∈ rest, Time.Sub u start ≤ (rl.Check ip t).1.window := by
          rw [Check_window]; exact hrest
        rw [ih (rl.Check ip t).1 (c + 1) h1 hrest2 j hj, Check_limit]
        congr 1
        apply decide_eq_decide.2
        push_cast
        constructor <;> intro h <;> omega

/-- C2: the rate limit boundary. For every limit of at least 1, every window and
every key without record, when successive calls of `Check` for that key are made
at non-decreasing times that all lie within the window opened by the first call,
the call number `k` (counted from zero, so the call of rank `k + 1`) returns
true if and only if `k + 1` is at most the limit. -/
theorem Check_boundary (rl : RateLimiter) (ip : String) (t0 : Time) (ts : List Time)
    (hlimit : 1 ≤ rl.limit) (hnew : rl.requests.Load ip = none)
    (_hsorted : (t0 :: ts).Pairwise (fun a b => a ≤ b))
    (hwindow : ∀ t ∈ ts, Time.Sub t t0 ≤ rl.window) :
    ∀ k : Nat, k < (t0 :: ts).length →
      (checkSeq rl ip (t0 :: ts)).2[k]? = some (decide ((k : Int) + 1 ≤ rl.limit)) := by
  intro k hk
  obtain ⟨h1, h2⟩ := Check_of_none t0 hnew
  cases k with
  | zero =>
    simp only [checkSeq, h2, List.getElem?_cons_zero, Option.some.injEq]
    symm; apply decide_eq_true; push_cast; omega
  | succ j =>
    have hj : j < ts.length := by simpa using hk
    simp only [checkSeq, List.getElem?_cons_succ]
    have hrest : ∀ u ∈ ts, Time.Sub u t0 ≤ (rl.Check ip t0).1.window := by
      rw [Check_window]; exact hwindow
    rw [checkSeq_within ip t0 ts (rl.Check ip t0).1 1 h1 hrest j hj, Check_limit]
    congr 1
    apply decide_eq_decide.2
    push_cast
    constructor <;> intro h <;> omega

/-- Witness of C2 on the limiter of `/connect` (limit 10, window one minute):
of eleven requests of one source spread over the first minute, the first ten are
admitted and the eleventh is rejected. -/
theorem Check_boundary_witness :
    (checkSeq connectRateLimiter "10.0.0.1"
        (5 :: [5, 6, 7, 8, 9, 10, 11, 12, 13, 60000000005])).2[9]? = some true ∧
      (checkSeq connectRateLimiter "10.0.0.1"
        (5 :: [5, 6, 7, 8, 9, 10, 11, 12, 13, 60000000005])).2[10]? = some false :=
  ⟨Check_boundary connectRateLimiter "10.0.0.1" 5
      [5, 6, 7, 8, 9, 10, 11, 12, 13, 60000000005]
      (by decide) (by decide) (by decide) (by decide) 9 (by decide),
    Check_boundary connectRateLimiter "10.0.0.1" 5
      [5, 6, 7, 8, 9, 10, 11, 12, 13, 60000000005]
      (by decide) (by decide) (by decide) (by decide) 10 (by decide)⟩

/-! ### Admissions inside a time interval -/

theorem admittedIn_cons (rl : RateLimiter) (ip : String) (a b t : Time) (rest : List Time) :
    admittedIn a b (t :: rest) (checkSeq rl ip (t :: rest)).2 =
      admittedIn a b rest (checkSeq (rl.Check ip t).1 ip rest).2 +
        (if ((rl.Check ip t).2 && decide (a ≤ t) && decide (t ≤ b)) = true then 1 else 0) := by
  simp only [admittedIn, checkSeq, List.zip_cons_cons, List.countP_cons]

/-- Calls made after the end of the interval are not counted. -/
theorem admittedIn_after (ip : String) (a b : Time) :
    ∀ (ts : List Time) (rl : RateLimiter), (∀ t ∈ ts, b < t) →
      admittedIn a b ts (checkSeq rl ip ts).2 = 0 := by
  intro ts
  induction ts with
  | nil => intro rl _; rfl
  | cons t rest ih =>
    intro rl h
    have ht : ¬ t ≤ b := not_le.2 (h t (List.mem_cons_self t rest))
    rw [admittedIn_cons, ih _ (fun u hu => h u (List.mem_cons_of_mem t hu))]
    simp [ht]

/-- Inside an interval that ends within the window of the current record, the
admissions only fill what is left of the limit. -/
theorem admittedIn_same_window (ip : String) (a b start : Time) :
    ∀ (ts : List Time) (rl : RateLimiter) (c : Int),
      rl.requests.Load ip = some { count := c, firstTime := start } →
      Time.Sub b start ≤ rl.window →
      ts.Pairwise (fun x y => x ≤ y) →
      ((admittedIn a b ts (checkSeq rl ip ts).2 : Nat) : Int) ≤ rl.limit - c ∨
        admittedIn a b ts (checkSeq rl ip ts).2 = 0 := by
  intro ts
  induction ts with
  | nil => intro rl c _ _ _; right; rfl
  | cons t rest ih =>
    intro rl c hrec hend hsorted
    obtain ⟨hhead, htail⟩ := List.pairwise_cons.1 hsorted
    by_cases htb : t ≤ b
    · have hin : ¬ Time.Sub t start > rl.window := by
        simp only [Time.Sub, Time, Duration] at *
        omega
      rw [admittedIn_cons]
      by_cases hfull : c ≥ rl.limit
      · rw [Check_of_full t hrec hin hfull]
        have := ih rl c hrec hend htail
        simp only [Bool.false_and, Bool.false_eq_true, if_false, Nat.add_zero]
        omega
      · obtain ⟨h1, h2⟩ := Check_of_room t hrec hin hfull
        have hend2 : Time.Sub b start ≤ (rl.Check ip t).1.window := by
          rw [Check_window]; exact hend
        have := ih (rl.Check ip t).1 (c + 1) h1 hend2 htail
        rw [Check_limit] at this
        left
        simp only [Duration] at *
        split_ifs <;> push_cast <;> omega
    · right
      apply admittedIn_after
      intro u hu
      rcases List.mem_cons.1 hu with rfl | hu
      · exact not_le.1 htb
      · exact lt_of_lt_of_le (not_le.1 htb) (hhead u hu)

/-- From a record of count `c`, the calls made at or after the start of an
interval no longer than the window are admitted at most `2 * limit - c` times
inside it, or at most `limit` times. -/
theorem admittedIn_from_record (ip : String) (a b : Time) :
    ∀ (ts : List Time) (rl : RateLimiter) (c : Int) (start : Time),
      rl.requests.Load ip = some { count := c, firstTime := start } →
      1 ≤ rl.limit →
      Time.Sub b a ≤ rl.window →
      ts.Pairwise (fun x y => x ≤ y) →
      (∀ t ∈ ts, a ≤ t) →
      ((admittedIn a b ts (checkSeq rl ip ts).2 : Nat) : Int) + c ≤ 2 * rl.limit ∨
        ((admittedIn a b ts (checkSeq rl ip ts).2 : Nat) : Int) ≤ rl.limit := by
  intro ts
  induction ts with
  | nil => intro rl c start _ hl _ _ _; right; simp [admittedIn, checkSeq]; omega
  | cons t rest ih =>
    intro rl c start hrec hlimit hlen hsorted hfrom
    obtain ⟨hhead, htail⟩ := List.pairwise_cons.1 hsorted
    have hat : a ≤ t := hfrom t (List.mem_cons_self t rest)
    have hfrom2 : ∀ u ∈ rest, a ≤ u := fun u hu => hfrom u (List.mem_cons_of_mem t hu)
    by_cases htb : t ≤ b
    · rw [admittedIn_cons]
      by_cases hexp : Time.Sub t start > rl.window
      · obtain ⟨h1, h2⟩ := Check_of_expired t hrec hexp
        have hend : Time.Sub b t ≤ (rl.Check ip t).1.window := by
          rw [Check_window]
          simp only [Time.Sub, Time, Duration] at *
          omega
        have := admittedIn_same_window ip a b t rest (rl.Check ip t).1 1 h1 hend htail
        rw [Check_limit] at this
        right
        simp only [Duration] at *
        split_ifs <;> push_cast <;> omega
      · by_cases hfull : c ≥ rl.limit
        · rw [Check_of_full t hrec hexp hfull]
          have := ih rl c start hrec hlimit hlen htail hfrom2
          simp only [Bool.false_and, Bool.false_eq_true, if_false, Nat.add_zero]
          exact this
        · obtain ⟨h1, h2⟩ := Check_of_room t hrec hexp hfull
          have hlen2 : Time.Sub b a ≤ (rl.Check ip t).1.window := by
            rw [Check_window]; exact hlen
          have hlimit2 : 1 ≤ (rl.Check ip t).1.limit := by
            rw [Check_limit]; exact hlimit
          have := ih (rl.Check ip t).1 (c + 1) start h1 hlimit2 hlen2 htail hfrom2
          rw [Check_limit] at this
          left
          simp only [Duration] at *
          split_ifs <;> push_cast <;> omega
    · right
      rw [admittedIn_after ip a b (t :: rest) rl]
      · push_cast; omega
      · intro u hu
        rcases List.mem_cons.1 hu with rfl | hu
        · exact not_le.1 htb
        · exact lt_of_lt_of_le (not_le.1 htb) (hhead u hu)

/-- Every record that `Check` leaves has a count of at least 1 when the records
before the call have. -/
theorem Check_count_pos (rl : RateLimiter) (ip : String) (now : Time)
    (h : ∀ info, rl.requests.Load ip = some info → 1 ≤ info.count) :
    ∀ info, (rl.Check ip now).1.requests.Load ip = some info → 1 ≤ info.count := by
  intro info hinfo
  cases hrec : rl.requests.Load ip with
  | none =>
    rw [(Check_of_none now hrec).1] at hinfo
    cases hinfo; exact le_refl _
  | some old =>
    have hold := h old hrec
    by_cases hexp : Time.Sub now old.firstTime > rl.window
    · rw [(Check_of_expired now hrec hexp).1] at hinfo
      cases hinfo; exact le_refl _
    · by_cases hfull : old.count ≥ rl.limit
      · rw [Check_of_full now hrec hexp hfull] at hinfo
        exact h info hinfo
      · rw [(Check_of_room now hrec hexp hfull).1] at hinfo
        cases hinfo
        show (1 : Int) ≤ old.count + 1
        omega

/-- C9, counterexample: the limiter is a fixed-window counter. On `/connect`
(limit 10, window one minute) the burst `burstTimes` is made at non-decreasing
times by a source without record, and 19 of its calls are admitted inside the
interval from 1 ns to one minute plus 1 ns, whose length is one minute; 19 is
more than the limit. -/
theorem Check_sliding_window_counterexample :
    burstTimes.Pairwise (fun x y => x ≤ y) ∧
      connectRateLimiter.limit = 10 ∧
      connectRateLimiter.window = Minute ∧
      connectRateLimiter.requests.Load "10.0.0.1" = none ∧
      Time.Sub 60000000001 1 = Minute ∧
      admittedIn 1 60000000001 burstTimes
        (checkSeq connectRateLimiter "10.0.0.1" burstTimes).2 = 19 ∧
      ¬ ((19 : Int) ≤ connectRateLimiter.limit) := by
  refine ⟨by decide, rfl, rfl, rfl, by decide, by decide, by decide⟩

/-- C9, as amended: the limiter bounds the admissions of a source by
`2 * limit - 1` in any interval no longer than the window. For every limit of at
least 1, every key whose record is absent or has a count of at least 1, every
sequence of `Check` calls for that key at non-decreasing times and every
interval from `a` to `b` of length at most the window, at most `2 * limit - 1`
of the calls made inside the interval return true (19 on `/connect`). -/
theorem Check_interval_bound (rl : RateLimiter) (ip : String) (a b : Time) :
    ∀ (times : List Time),
      1 ≤ rl.limit →
      (∀ info, rl.requests.Load ip = some info → 1 ≤ info.count) →
      Time.Sub b a ≤ rl.window →
      times.Pairwise (fun x y => x ≤ y) →
      ((admittedIn a b times (checkSeq rl ip times).2 : Nat) : Int) ≤ 2 * rl.limit - 1 := by
  intro times
  induction times generalizing rl with
  | nil =>
    intro hlimit _ _ _
    simp only [admittedIn, checkSeq, List.zip_nil_right, List.countP_nil, Duration] at *
    push_cast; omega
  | cons t rest ih =>
    intro hlimit hstate hlen hsorted
    obtain ⟨hhead, htail⟩ := List.pairwise_cons.1 hsorted
    by_cases hat : a ≤ t
    · cases hrec : rl.requests.Load ip with
      | none =>
        by_cases htb : t ≤ b
        · obtain ⟨h1, h2⟩ := Check_of_none t hrec
          have hend : Time.Sub b t ≤ (rl.Check ip t).1.window := by
            rw [Check_window]
            simp only [Time.Sub, Time, Duration] at *
            omega
          have := admittedIn_same_window ip a b t rest (rl.Check ip t).1 1 h1 hend htail
          rw [Check_limit] at this
          rw [admittedIn_cons]
          simp only [Duration] at *
          split_ifs <;> push_cast <;> omega
        · rw [admittedIn_after ip a b (t :: rest) rl]
          · simp only [Duration] at *
            push_cast; omega
          · intro u hu
            rcases List.mem_cons.1 hu with rfl | hu
            · exact not_le.1 htb
            · exact lt_of_lt_of_le (not_le.1 htb) (hhead u hu)
      | some info =>
        have hpos := hstate info hrec
        have hfrom : ∀ u ∈ t :: rest, a ≤ u := by
          intro u hu
          rcases List.mem_cons.1 hu with rfl | hu
          · exact hat
          · exact le_trans hat (hhead u hu)
        have := admittedIn_from_record ip a b (t :: rest) rl info.count info.firstTime
          hrec hlimit hlen hsorted hfrom
        simp only [Duration] at *
        omega
    · have hrest := ih (rl.Check ip t).1 (by rw [Check_limit]; exact hlimit)
        (Check_count_pos rl ip t hstate) (by rw [Check_window]; exact hlen) htail
      rw [Check_limit] at hrest
      rw [admittedIn_cons]
      simp only [hat, decide_False, Bool.and_false, Bool.false_and, Bool.false_eq_true,
        if_false, Nat.add_zero]
      exact hrest

/-- Witness of the amended C9 on the limiter of `/connect`: the burst
`burstTimes` has at most 19 admissions in the minute that starts at 1 ns. -/
theorem Check_interval_bound_witness :
    ((admittedIn 1 60000000001 burstTimes
        (checkSeq connectRateLimiter "10.0.0.1" burstTimes).2 : Nat) : Int) ≤
      2 * connectRateLimiter.limit - 1 :=
  Check_interval_bound connectRateLimiter "10.0.0.1" 1 60000000001 burstTimes
    (by decide)
    (fun info (h : (none : Option requestInfo) = some info) => Option.noConfusion h)
    (by decide) (by decide)

end middleware

/-! ## The remote-shell session -/

namespace ssh

/-- C8: missing credentials are rejected before any connection attempt. For
every configuration whose password and private key are both empty, whatever the
other fields and whatever the library would answer, `NewSession` returns the
error of the missing credentials, no session, and makes no library call: no key
is parsed and `ssh.Dial` is not invoked. -/
theorem NewSession_missing_credentials (lib : Lib) (cfg : SessionConfig)
    (hpassword : cfg.Password = "") (hkey : cfg.PrivateKey = "") :
    NewSession lib cfg = (.error "需要提供密码或私钥", []) := by
  simp [NewSession, privateKeyAuth, hpassword, hkey]

/-- Witness of C8: under a library whose dial would succeed, a configuration with
a passphrase but neither password nor key is refused without any call. -/
theorem NewSession_missing_credentials_witness :
    NewSession sampleLib
        { Hostname := "example.org", Port := 22, Username := "root", Password := "",
          PrivateKey := "", Passphrase := "secret", Timeout := 10 * Second,
          BufferSize := 0 } =
      (.error "需要提供密码或私钥", []) :=
  NewSession_missing_credentials sampleLib _ rfl rfl

theorem Close_of_closed {s : Session} (h : s.closed = true) : s.Close = (s, []) := by
  simp [Session.Close, h]

theorem Close_closed (s : Session) : s.Close.1.closed = true := by
  unfold Session.Close
  split_ifs with h
  · exact h
  · rfl

theorem closeTimes_of_closed {s : Session} (h : s.closed = true) :
    ∀ n : Nat, Session.closeTimes n s = (s, []) := by
  intro n
  induction n with
  | zero => rfl
  | succ k ih => simp [Session.closeTimes, Close_of_closed h, ih]

/-- C6: `Session.Close` is idempotent and releases each handle exactly once. For
every session state: on a session not yet closed, `Close` sets the closed flag,
changes nothing else, and closes each non-nil handle once, in the order input
stream, channel, transport connection; on a closed session it changes nothing
and closes no handle; hence a `Close` after a `Close` changes nothing and closes
nothing, and any number of successive calls, at least one, leaves the state and
the list of released handles of a single call. -/
theorem Close_idempotent (s : Session) :
    (s.closed = false →
      s.Close = ({ s with closed := true },
        (s.stdin.toList.map Release.stdin ++ s.session.toList.map Release.session) ++
          s.client.toList.map Release.client)) ∧
    (s.closed = true → s.Close = (s, [])) ∧
    s.Close.1.Close = (s.Close.1, []) ∧
    (∀ n : Nat, Session.closeTimes (n + 1) s = s.Close) := by
  refine ⟨?_, fun h => Close_of_closed h, Close_of_closed (Close_closed s), ?_⟩
  · intro h
    cases hi : s.stdin <;> cases hc : s.session <;> cases hk : s.client <;>
      simp [Session.Close, h, hi, hc, hk]
  · intro n
    simp [Session.closeTimes, closeTimes_of_closed (Close_closed s) n]

/-- Witness of C6 on a started session: the first `Close` releases the pipe 3,
the channel 2 and the connection 1 in that order, and three calls do the same. -/
theorem Close_idempotent_witness :
    startedSession.Close =
        ({ startedSession with closed := true },
          [Release.stdin 3, Release.session 2, Release.client 1]) ∧
      Session.closeTimes 3 startedSession = startedSession.Close :=
  ⟨(Close_idempotent startedSession).1 rfl, (Close_idempotent startedSession).2.2.2 2⟩

/-- C5: the dispatch of inbound frames in `HandleWebSocket`. For every session,
library and inbound frame: (a) a text frame that decodes with type "resize"
causes one window change with the decoded rows and columns when the channel
exists, causes nothing when it does not, writes nothing to the input sink, and
the loop goes on; (b) a text frame that decodes with type "data" causes exactly
one write, of the bytes of its data string; (c) a text frame that fails to
decode, a text frame that decodes with any other type, and every frame that is
not a text frame cause exactly one write, of the bytes of the frame as received. -/
theorem handleFrame_dispatch (lib : Lib) (s : Session) (n : Nat) (f : Frame) :
    (∀ input, f.msgType = TextMessage → lib.Unmarshal f.msg = some input →
      input.Type_ = "resize" →
        (∀ channel, s.session = some channel →
          s.handleFrame lib n f =
            ([BridgeEvent.WindowChange channel input.Resize.Rows input.Resize.Cols], true)) ∧
        (s.session = none → s.handleFrame lib n f = ([], true))) ∧
    (∀ input, f.msgType = TextMessage → lib.Unmarshal f.msg = some input →
      input.Type_ = "data" →
        (s.handleFrame lib n f).1 = [BridgeEvent.stdinWrite s.stdin (bytesOf input.Data)]) ∧
    (f.msgType = TextMessage → lib.Unmarshal f.msg = none →
      (s.handleFrame lib n f).1 = [BridgeEvent.stdinWrite s.stdin f.msg]) ∧
    (∀ input, f.msgType = TextMessage → lib.Unmarshal f.msg = some input →
      input.Type_ ≠ "resize" → input.Type_ ≠ "data" →
        (s.handleFrame lib n f).1 = [BridgeEvent.stdinWrite s.stdin f.msg]) ∧
    (f.msgType ≠ TextMessage →
      (s.handleFrame lib n f).1 = [BridgeEvent.stdinWrite s.stdin f.msg]) := by
  refine ⟨?_, ?_, ?_, ?_, ?_⟩
  · intro input ht hd hr
    constructor
    · intro channel hc
      simp [Session.handleFrame, ht, hd, hr, hc]
    · intro hc
      simp [Session.handleFrame, ht, hd, hr, hc]
  · intro input ht hd hr
    have hne : ¬ input.Type_ = "resize" := by rw [hr]; decide
    simp [Session.handleFrame, ht, hd, hr, hne]
  · intro ht hd
    simp [Session.handleFrame, ht, hd]
  · intro input ht hd h1 h2
    simp [Session.handleFrame, ht, hd, h1, h2]
  · intro ht
    simp [Session.handleFrame, ht]

/-- Witness of C5 on a started session: the resize frame changes the window of
the channel 2 to 40 rows and 120 columns, the data frame writes its command
line, and a binary frame with the text of the data frame is written as received. -/
theorem handleFrame_dispatch_witness :
    startedSession.handleFrame sampleLib 0 { msgType := TextMessage, msg := bytesOf resizeText } =
        ([BridgeEvent.WindowChange 2 40 120], true) ∧
      (startedSession.handleFrame sampleLib 0
          { msgType := TextMessage, msg := bytesOf dataText }).1 =
        [BridgeEvent.stdinWrite (some 3) (bytesOf "echo hi\n")] ∧
      (startedSession.handleFrame sampleLib 0
          { msgType := BinaryMessage, msg := bytesOf dataText }).1 =
        [BridgeEvent.stdinWrite (some 3) (bytesOf dataText)] :=
  ⟨((handleFrame_dispatch sampleLib startedSession 0
        { msgType := TextMessage, msg := bytesOf resizeText }).1
      { Type_ := "resize", Data := "", Resize := { Cols := 120, Rows := 40 } }
      rfl (by decide) rfl).1 2 rfl,
    (handleFrame_dispatch sampleLib startedSession 0
        { msgType := TextMessage, msg := bytesOf dataText }).2.1
      { Type_ := "data", Data := "echo hi\n", Resize := { Cols := 0, Rows := 0 } }
      rfl (by decide) rfl,
    (handleFrame_dispatch sampleLib startedSession 0
        { msgType := BinaryMessage, msg := bytesOf dataText }).2.2.2.2 (by decide)⟩

/-- A session that `NewSession` returns carries the identifier that
`generateSessionID` produced. -/
theorem NewSession_ok_ID {lib : Lib} {cfg : SessionConfig} {s : Session} {calls : List LibCall}
    (h : NewSession lib cfg = (.ok s, calls)) : s.ID = lib.newUUID := by
  unfold NewSession at h
  dsimp only at h
  generalize privateKeyAuth lib cfg = pk at h
  obtain ⟨r, c0⟩ := pk
  cases r with
  | error e => simp at h
  | ok km =>
    dsimp only at h
    split_ifs at h
    all_goals try (exact absurd h (by simp))
    all_goals
      generalize lib.Dial _ _ _ = d at h
      cases d with
      | error e => simp at h
      | ok client =>
        simp only [Prod.mk.injEq, Except.ok.injEq] at h
        rw [← h.1]

end ssh

/-! ## The session registry -/

namespace handler

theorem mem_of_lookupList {V : Type} {key : String} {v : V} :
    ∀ {l : List (String × V)}, KeyMap.lookupList key l = some v → (key, v) ∈ l := by
  intro l
  induction l with
  | nil => intro h; simp [KeyMap.lookupList] at h
  | cons p rest ih =>
    obtain ⟨k, w⟩ := p
    intro h
    by_cases hk : k = key
    · simp only [KeyMap.lookupList, hk, if_true, Option.some.injEq] at h
      rw [hk, h]; exact List.mem_cons_self _ _
    · simp only [KeyMap.lookupList, hk, if_false] at h
      exact List.mem_cons_of_mem _ (ih h)

/-- The events of the session cleaner for the entries of a list: for each
expired entry, in order, the close of its session and then its removal. -/
theorem rangeList_cleanerVisit (now : Time) :
    ∀ (l : List (String × sessionEntry)) (m : KeyMap sessionEntry) (tr : List CleanerEvent),
      (KeyMap.rangeList (cleanerVisit now) l (m, tr)).1.entries =
          m.entries.filter
            (fun p => !(l.any (fun q => decide (q.1 = p.1) && sessionExpired now q.2))) ∧
        (KeyMap.rangeList (cleanerVisit now) l (m, tr)).2 =
          tr ++ (l.filter (fun q => sessionExpired now q.2)).flatMap
            (fun q => [CleanerEvent.Close q.1 q.2.session.Close.2, CleanerEvent.Delete q.1]) := by
  intro l
  induction l with
  | nil =>
    intro m tr
    simp [KeyMap.rangeList]
  | cons q rest ih =>
    obtain ⟨k, e⟩ := q
    intro m tr
    by_cases hexp : sessionExpired now e = true
    · have hstep : KeyMap.rangeList (cleanerVisit now) ((k, e) :: rest) (m, tr) =
          KeyMap.rangeList (cleanerVisit now) rest
            (m.Delete k,
              tr ++ [CleanerEvent.Close k e.session.Close.2, CleanerEvent.Delete k]) := by
        simp [KeyMap.rangeList, cleanerVisit, hexp]
      rw [hstep]
      obtain ⟨h1, h2⟩ := ih (m.Delete k)
        (tr ++ [CleanerEvent.Close k e.session.Close.2, CleanerEvent.Delete k])
      constructor
      · rw [h1]
        show List.filter _ (KeyMap.eraseList k m.entries) = _
        unfold KeyMap.eraseList
        rw [List.filter_filter]
        apply List.filter_congr
        intro p _
        by_cases hk : k = p.1
        · have hk2 : p.1 = k := hk.symm
          simp [hk2, hexp]
        · have hk2 : ¬ p.1 = k := fun h => hk h.symm
          simp [hk, hk2]
      · rw [h2]
        simp [List.filter_cons, hexp, List.flatMap_cons]
    · have hstep : KeyMap.rangeList (cleanerVisit now) ((k, e) :: rest) (m, tr) =
          KeyMap.rangeList (cleanerVisit now) rest (m, tr) := by
        simp [KeyMap.rangeList, cleanerVisit, hexp]
      rw [hstep]
      obtain ⟨h1, h2⟩ := ih m tr
      constructor
      · rw [h1]
        apply List.filter_congr
        intro p _
        simp [hexp]
      · rw [h2]
        simp [List.filter_cons, hexp]

/-- What one pass of the session cleaner leaves and does, in terms of the test
`sessionExpired`. -/
theorem sessionCleanerPass_run (h : Handler) (now : Time) :
    (h.sessionCleanerPass now).1.sessions.entries =
        h.sessions.entries.filter (fun p => !sessionExpired now p.2) ∧
      (h.sessionCleanerPass now).2 =
        (h.sessions.entries.filter (fun p => sessionExpired now p.2)).flatMap
          (fun p => [CleanerEvent.Close p.1 p.2.session.Close.2, CleanerEvent.Delete p.1]) := by
  obtain ⟨h1, h2⟩ := rangeList_cleanerVisit now h.sessions.entries h.sessions []
  constructor
  · show (KeyMap.rangeList (cleanerVisit now) h.sessions.entries (h.sessions, [])).1.entries = _
    rw [h1]
    apply List.filter_congr
    intro p hp
    congr 1
    by_cases hpe : sessionExpired now p.2 = true
    · rw [hpe, List.any_eq_true]
      exact ⟨p, hp, by simp only [decide_True, Bool.true_and]; exact hpe⟩
    · rw [Bool.not_eq_true] at hpe
      rw [hpe]
      apply Bool.eq_false_iff.2
      rw [Ne, List.any_eq_true]
      rintro ⟨q, hq, hqp⟩
      simp only [Bool.and_eq_true, decide_eq_true_eq] at hqp
      have hqeq : q = p := List.inj_on_of_nodup_map h.sessions.nodup hq hp hqp.1
      rw [hqeq, hpe] at hqp
      exact Bool.false_ne_true hqp.2
  · show (KeyMap.rangeList (cleanerVisit now) h.sessions.entries (h.sessions, [])).2 = _
    rw [h2]
    rfl

/-- C7: one pass of the session cleaner. For every registry state and every pass
time, the registry after the pass holds exactly the entries whose age
`now - createdAt` is at most 30 seconds, in their order; the calls made are, for
each entry older than 30 seconds, the `Close` of its session followed at once by
the removal of the entry, and nothing else; so no session of a retained entry is
closed. -/
theorem sessionCleanerPass_spec (h : Handler) (now : Time) :
    (h.sessionCleanerPass now).1.sessions.entries =
        h.sessions.entries.filter
          (fun p => decide (Time.Sub now p.2.createdAt ≤ 30 * Second)) ∧
      (h.sessionCleanerPass now).1.cfg = h.cfg ∧
      (h.sessionCleanerPass now).2 =
        (h.sessions.entries.filter
            (fun p => decide (Time.Sub now p.2.createdAt > 30 * Second))).flatMap
          (fun p => [CleanerEvent.Close p.1 p.2.session.Close.2, CleanerEvent.Delete p.1]) ∧
      (∀ key entry, h.sessions.Load key = some entry →
        Time.Sub now entry.createdAt ≤ 30 * Second →
        ∀ releases, CleanerEvent.Close key releases ∉ (h.sessionCleanerPass now).2) := by
  obtain ⟨h1, h2⟩ := sessionCleanerPass_run h now
  refine ⟨?_, rfl, h2, ?_⟩
  · rw [h1]
    apply List.filter_congr
    intro p _
    by_cases hpe : Time.Sub now p.2.createdAt > 30 * Second
    · simp only [sessionExpired, decide_eq_true hpe, Bool.not_true]
      exact (decide_eq_false (not_le.2 hpe)).symm
    · simp only [sessionExpired, decide_eq_false hpe, Bool.not_false]
      exact (decide_eq_true (not_lt.1 hpe)).symm
  · intro key entry hload hkeep releases hmem
    rw [h2, List.mem_flatMap] at hmem
    obtain ⟨p, hp, hin⟩ := hmem
    obtain ⟨hpmem, hpexp⟩ := List.mem_filter.1 hp
    have hkey : p.1 = key := by
      simp only [List.mem_cons, CleanerEvent.Close.injEq, List.mem_singleton,
        List.not_mem_nil, or_false] at hin
      rcases hin with h3 | h3
      · exact h3.1.symm
      · cases h3
    have hkv : (key, entry) ∈ h.sessions.entries := mem_of_lookupList hload
    have hpeq : p = (key, entry) :=
      List.inj_on_of_nodup_map h.sessions.nodup hpmem hkv hkey
    rw [hpeq] at hpexp
    exact absurd (of_decide_eq_true hpexp) (not_lt.2 hkeep)

/-- Witness of C7 on `sampleHandler`, 31 seconds after the creation of "s1": the
pass closes the session of "s1", whose only handle is the connection 1, removes
"s1" and keeps "s2" untouched. -/
theorem sessionCleanerPass_spec_witness :
    (sampleHandler.sessionCleanerPass 31000000000).1.sessions.entries =
        [("s2", sampleEntry "s2" 6 20000000000)] ∧
      (sampleHandler.sessionCleanerPass 31000000000).2 =
        [CleanerEvent.Close "s1" [ssh.Release.client 1], CleanerEvent.Delete "s1"] ∧
      CleanerEvent.Close "s2" [ssh.Release.client 6] ∉
        (sampleHandler.sessionCleanerPass 31000000000).2 :=
  ⟨(sessionCleanerPass_spec sampleHandler 31000000000).1.trans (by decide),
    (sessionCleanerPass_spec sampleHandler 31000000000).2.2.1.trans (by decide),
    (sessionCleanerPass_spec sampleHandler 31000000000).2.2.2 "s2"
      (sampleEntry "s2" 6 20000000000) (by decide) (by decide) [ssh.Release.client 6]⟩

/-! ### Connect -/

theorem rangeList_count {V : Type} :
    ∀ (l : List (String × V)) (n : Int),
      KeyMap.rangeList (fun _ _ (k : Int) => (k + 1, true)) l n = n + (l.length : Int) := by
  intro l
  induction l with
  | nil => intro n; simp [KeyMap.rangeList]
  | cons p rest ih =>
    obtain ⟨k, v⟩ := p
    intro n
    simp only [KeyMap.rangeList, ih, List.length_cons]
    push_cast
    omega

/-- The count that `Connect` makes is the number of entries of the registry. -/
theorem connCount_eq_length (h : Handler) : h.connCount = (h.sessions.entries.length : Int) := by
  simp [Handler.connCount, KeyMap.Range, rangeList_count]

/-- C4: `Connect` validates in the stated order and creates nothing on failure.
For every parsed request and registry state the first failing check among
hostname empty, username empty, port neither 0 nor in 1..65535, number of
registry entries at least `MaxConn` decides the response; in each of these cases
the response has `success` false, a non-empty message and no session id,
`ssh.NewSession` is not called and the handler is unchanged. When the four
checks pass, `ssh.NewSession` is called once, with port 22 for a port of 0 and
with the port of the request for a port in 1..65535. A body that does not parse
is refused as well, before these checks, and creates nothing. -/
theorem Connect_validation (lib : ssh.Lib) (now : Time) (h : Handler) (req : ConnectRequest) :
    (req.Hostname = "" →
      h.Connect lib now (some req) =
        (h, { Success := false, SessionID := "", Message := "主机地址不能为空" }, [])) ∧
    (req.Hostname ≠ "" → req.Username = "" →
      h.Connect lib now (some req) =
        (h, { Success := false, SessionID := "", Message := "用户名不能为空" }, [])) ∧
    (req.Hostname ≠ "" → req.Username ≠ "" →
      req.Port ≠ 0 → (req.Port < 1 ∨ req.Port > 65535) →
      h.Connect lib now (some req) =
        (h, { Success := false, SessionID := "", Message := "端口范围无效 (1-65535)" }, [])) ∧
    (req.Hostname ≠ "" → req.Username ≠ "" →
      (req.Port = 0 ∨ (1 ≤ req.Port ∧ req.Port ≤ 65535)) →
      (h.sessions.entries.length : Int) ≥ h.cfg.MaxConn →
      h.Connect lib now (some req) =
        (h, { Success := false, SessionID := "", Message := "连接数已达上限" }, [])) ∧
    ((req.Hostname = "" ∨ req.Username = "" ∨
        (req.Port ≠ 0 ∧ (req.Port < 1 ∨ req.Port > 65535)) ∨
        (h.sessions.entries.length : Int) ≥ h.cfg.MaxConn) →
      (h.Connect lib now (some req)).1 = h ∧
        (h.Connect lib now (some req)).2.1.Success = false ∧
        (h.Connect lib now (some req)).2.1.Message ≠ "" ∧
        (h.Connect lib now (some req)).2.1.SessionID = "" ∧
        (h.Connect lib now (some req)).2.2 = []) ∧
    (req.Hostname ≠ "" → req.Username ≠ "" →
      (req.Port = 0 ∨ (1 ≤ req.Port ∧ req.Port ≤ 65535)) →
      (h.sessions.entries.length : Int) < h.cfg.MaxConn →
      (h.Connect lib now (some req)).2.2 =
        [ConnectEvent.NewSession
          { Hostname := req.Hostname, Port := if req.Port = 0 then 22 else req.Port,
            Username := req.Username, Password := req.Password,
            PrivateKey := req.PrivateKey, Passphrase := req.Passphrase,
            Timeout := wrapInt64 (h.cfg.Timeout * Second),
            BufferSize := h.cfg.BufferSize }
          (ssh.NewSession lib
            { Hostname := req.Hostname, Port := if req.Port = 0 then 22 else req.Port,
              Username := req.Username, Password := req.Password,
              PrivateKey := req.PrivateKey, Passphrase := req.Passphrase,
              Timeout := wrapInt64 (h.cfg.Timeout * Second),
              BufferSize := h.cfg.BufferSize }).2]) ∧
    h.Connect lib now none =
      (h, { Success := false, SessionID := "", Message := "请求参数错误" }, []) := by
  have hcount := connCount_eq_length h
  have hA : req.Hostname = "" →
      h.Connect lib now (some req) =
        (h, { Success := false, SessionID := "", Message := "主机地址不能为空" }, []) := by
    intro h1; simp [Handler.Connect, h1]
  have hB : req.Hostname ≠ "" → req.Username = "" →
      h.Connect lib now (some req) =
        (h, { Success := false, SessionID := "", Message := "用户名不能为空" }, []) := by
    intro h1 h2; simp [Handler.Connect, h1, h2]
  have hC : req.Hostname ≠ "" → req.Username ≠ "" →
      req.Port ≠ 0 → (req.Port < 1 ∨ req.Port > 65535) →
      h.Connect lib now (some req) =
        (h, { Success := false, SessionID := "", Message := "端口范围无效 (1-65535)" }, []) := by
    intro h1 h2 h3 h4
    have hport : checkPort req.Port = none := by simp [checkPort, h3, h4]
    simp [Handler.Connect, h1, h2, hport]
  have hport : (req.Port = 0 ∨ (1 ≤ req.Port ∧ req.Port ≤ 65535)) →
      checkPort req.Port = some (if req.Port = 0 then 22 else req.Port) := by
    intro h3
    by_cases h0 : req.Port = 0
    · simp [checkPort, h0]
    · have hin : ¬ (req.Port < 1 ∨ req.Port > 65535) := by omega
      simp [checkPort, h0, hin]
  have hD : req.Hostname ≠ "" → req.Username ≠ "" →
      (req.Port = 0 ∨ (1 ≤ req.Port ∧ req.Port ≤ 65535)) →
      (h.sessions.entries.length : Int) ≥ h.cfg.MaxConn →
      h.Connect lib now (some req) =
        (h, { Success := false, SessionID := "", Message := "连接数已达上限" }, []) := by
    intro h1 h2 h3 h4
    have h5 : h.connCount ≥ h.cfg.MaxConn := by rw [hcount]; exact h4
    simp only [Handler.Connect, h1, h2, hport h3, if_false]
    rw [if_pos h5]
  refine ⟨hA, hB, hC, hD, ?_, ?_, rfl⟩
  · intro hfail
    by_cases h1 : req.Hostname = ""
    · rw [hA h1]; exact ⟨rfl, rfl, by dsimp only; decide, rfl, rfl⟩
    · by_cases h2 : req.Username = ""
      · rw [hB h1 h2]; exact ⟨rfl, rfl, by dsimp only; decide, rfl, rfl⟩
      · by_cases h3 : req.Port ≠ 0 ∧ (req.Port < 1 ∨ req.Port > 65535)
        · rw [hC h1 h2 h3.1 h3.2]; exact ⟨rfl, rfl, by dsimp only; decide, rfl, rfl⟩
        · have h4 : (h.sessions.entries.length : Int) ≥ h.cfg.MaxConn := by
            rcases hfail with hf | hf | hf | hf
            · exact absurd hf h1
            · exact absurd hf h2
            · exact absurd hf h3
            · exact hf
          have h5 : req.Port = 0 ∨ (1 ≤ req.Port ∧ req.Port ≤ 65535) := by omega
          rw [hD h1 h2 h5 h4]; exact ⟨rfl, rfl, by dsimp only; decide, rfl, rfl⟩
  · intro h1 h2 h3 h4
    have h5 : ¬ h.connCount ≥ h.cfg.MaxConn := by rw [hcount]; exact not_le.2 h4
    simp only [Handler.Connect, h1, h2, hport h3, if_false]
    rw [if_neg h5]
    split
    · rename_i heq; rw [heq]
    · rename_i heq; rw [heq]

/-- Witness of C4 on `sampleHandler`: a port of 70000 is refused with the message
of the port range and nothing changes; a missing port becomes 22 in the call of
`ssh.NewSession`. -/
theorem Connect_validation_witness :
    sampleHandler.Connect ssh.sampleLib 5 (some { sampleRequest with Port := 70000 }) =
        (sampleHandler,
          { Success := false, SessionID := "", Message := "端口范围无效 (1-65535)" }, []) ∧
      (sampleHandler.Connect ssh.sampleLib 5 (some sampleRequest)).2.2 =
        [ConnectEvent.NewSession
          { Hostname := "example.org", Port := 22, Username := "root", Password := "pw",
            PrivateKey := "", Passphrase := "", Timeout := 10000000000,
            BufferSize := 32768 }
          [ssh.LibCall.Dial "tcp" "example.org:22"
            { User := "root",
              Auth := [ssh.AuthMethod.Password "pw", ssh.AuthMethod.KeyboardInteractive "pw"],
              Timeout := 10000000000 }]] :=
  ⟨(Connect_validation ssh.sampleLib 5 sampleHandler { sampleRequest with Port := 70000 }).2.2.1
      (by decide) (by decide) (by decide) (by decide),
    ((Connect_validation ssh.sampleLib 5 sampleHandler sampleRequest).2.2.2.2.2.1
      (by decide) (by decide) (by decide) (by decide)).trans (by decide)⟩

/-! ### Attach -/

theorem lookupList_filter_none {V : Type} (key : String) (p : String × V → Bool) :
    ∀ (l : List (String × V)), KeyMap.lookupList key l = none →
      KeyMap.lookupList key (l.filter p) = none := by
  intro l
  induction l with
  | nil => intro _; rfl
  | cons q rest ih =>
    obtain ⟨k, v⟩ := q
    intro h
    by_cases hk : k = key
    · simp [KeyMap.lookupList, hk] at h
    · simp only [KeyMap.lookupList, hk, if_false] at h
      rw [List.filter_cons]
      split_ifs
      · simp only [KeyMap.lookupList, hk, if_false]
        exact ih h
      · exact ih h

/-- The registry that `WebSocket` leaves: the entry under the identifier is
removed when it was found, nothing changes otherwise. -/
theorem WebSocket_sessions (lib : ssh.Lib) (frames : List ssh.Frame) (h : Handler)
    (sessionID : String) :
    (h.WebSocket lib frames sessionID).1 = h ∨
      (h.WebSocket lib frames sessionID).1 =
        { h with sessions := h.sessions.Delete sessionID } := by
  unfold Handler.WebSocket
  split_ifs
  · left; rfl
  · split
    · left; rfl
    · right
      dsimp only
      split <;> rfl

/-- The branch that `WebSocket` takes on an identifier without entry. -/
theorem WebSocket_not_found (lib : ssh.Lib) (frames : List ssh.Frame) (h : Handler)
    {sessionID : String} (hid : sessionID ≠ "") (hnone : h.sessions.Load sessionID = none) :
    h.WebSocket lib frames sessionID =
      (h, [WsEvent.WriteMessage ssh.TextMessage "错误: 会话不存在或已过期", WsEvent.connClose]) := by
  unfold Handler.WebSocket
  rw [if_neg hid, hnone]

/-- A request that does not store under an identifier leaves it without entry. -/
theorem serve_Load_none (h : Handler) (id : String) (r : Request)
    (hstore : ¬ r.storesUnder id) (hnone : h.sessions.Load id = none) :
    (h.serve r).sessions.Load id = none := by
  cases r with
  | connect lib now body =>
    have hne : id ≠ lib.newUUID := fun heq => hstore heq.symm
    show (h.Connect lib now body).1.sessions.Load id = none
    unfold Handler.Connect
    split
    · exact hnone
    · split_ifs
      · exact hnone
      · exact hnone
      · split <;> exact hnone
      · split
        · exact hnone
        · dsimp only
          split
          · exact hnone
          · rename_i session calls heq
            show (h.sessions.Store session.ID _).Load id = none
            rw [ssh.NewSession_ok_ID heq, KeyMap.Load_Store_ne _ hne]
            exact hnone
  | attach lib frames sessionID =>
    show (h.WebSocket lib frames sessionID).1.sessions.Load id = none
    rcases WebSocket_sessions lib frames h sessionID with heq | heq
    · rw [heq]; exact hnone
    · rw [heq]; exact KeyMap.Load_Delete_of_none _ _ _ hnone
  | clean now =>
    show (h.sessionCleanerPass now).1.sessions.Load id = none
    unfold KeyMap.Load
    rw [(sessionCleanerPass_run h now).1]
    exact lookupList_filter_none id _ _ hnone

theorem serveAll_Load_none (id : String) :
    ∀ (requests : List Request) (h : Handler),
      (∀ r ∈ requests, ¬ r.storesUnder id) → h.sessions.Load id = none →
      (h.serveAll requests).sessions.Load id = none := by
  intro requests
  induction requests with
  | nil => intro h _ hnone; exact hnone
  | cons r rest ih =>
    intro h hstore hnone
    exact ih (h.serve r) (fun q hq => hstore q (List.mem_cons_of_mem r hq))
      (serve_Load_none h id r (hstore r (List.mem_cons_self r rest)) hnone)

/-- The handler that `WebSocket` leaves when it finds an entry. -/
theorem WebSocket_found (lib : ssh.Lib) (frames : List ssh.Frame) (h : Handler)
    {sessionID : String} {entry : sessionEntry} (hid : sessionID ≠ "")
    (hfound : h.sessions.Load sessionID = some entry) :
    (h.WebSocket lib frames sessionID).1 =
      { h with sessions := h.sessions.Delete sessionID } := by
  unfold Handler.WebSocket
  rw [if_neg hid, hfound]
  dsimp only
  split <;> rfl

/-- C1: at most one attach per identifier, sequential case. For every registry
state and every session identifier, once `WebSocket` has run with the identifier
and found an entry (the identifier is not empty and the lookup succeeds), the
registry is the former one without that entry and no longer contains the
identifier; and after any further requests, none of which stores under the
identifier, an attach with the same identifier takes the not-found branch: it
writes the error text frame and closes the connection, calls neither
`StartShell` nor `HandleWebSocket`, and leaves the handler unchanged. -/
theorem WebSocket_claims_once (lib : ssh.Lib) (frames : List ssh.Frame) (h : Handler)
    (id : String) (entry : sessionEntry)
    (hid : id ≠ "") (hfound : h.sessions.Load id = some entry) :
    (h.WebSocket lib frames id).1.sessions = h.sessions.Delete id ∧
      (h.WebSocket lib frames id).1.sessions.Load id = none ∧
      ∀ (requests : List Request), (∀ r ∈ requests, ¬ r.storesUnder id) →
        ∀ (lib2 : ssh.Lib) (frames2 : List ssh.Frame),
          ((h.WebSocket lib frames id).1.serveAll requests).WebSocket lib2 frames2 id =
            ((h.WebSocket lib frames id).1.serveAll requests,
              [WsEvent.WriteMessage ssh.TextMessage "错误: 会话不存在或已过期",
                WsEvent.connClose]) := by
  have hfirst := WebSocket_found lib frames h hid hfound
  have hgone : (h.WebSocket lib frames id).1.sessions.Load id = none := by
    rw [hfirst]; exact KeyMap.Load_Delete_self h.sessions id
  refine ⟨by rw [hfirst], hgone, ?_⟩
  intro requests hstore lib2 frames2
  exact WebSocket_not_found lib2 frames2 _ hid
    (serveAll_Load_none id requests _ hstore hgone)

/-- Witness of C1 on `sampleHandler`: after the attach with "s1", a cleaner pass,
an attach with "s2" and a successful `Connect` under a fresh identifier, a second
attach with "s1" only gets the error frame. -/
theorem WebSocket_claims_once_witness :
    (((sampleHandler.WebSocket ssh.sampleLib [] "s1").1.serveAll
          [Request.clean 31000000000, Request.attach ssh.sampleLib [] "s2",
            Request.connect ssh.sampleLib 32000000000 (some sampleRequest)]).WebSocket
        ssh.sampleLib [] "s1").2 =
      [WsEvent.WriteMessage ssh.TextMessage "错误: 会话不存在或已过期", WsEvent.connClose] :=
  congrArg Prod.snd
    ((WebSocket_claims_once ssh.sampleLib [] sampleHandler "s1" (sampleEntry "s1" 1 0)
        (by decide) (by decide)).2.2
      [Request.clean 31000000000, Request.attach ssh.sampleLib [] "s2",
        Request.connect ssh.sampleLib 32000000000 (some sampleRequest)]
      (by
        intro r hr
        simp only [List.mem_cons, List.mem_singleton, List.not_mem_nil, or_false] at hr
        rcases hr with rfl | rfl | rfl
        · exact id
        · exact id
        · show ¬ (ssh.sampleLib.newUUID = "s1")
          decide)
      ssh.sampleLib [])

/-! ### Two concurrent attaches -/

/-- One goroutine that makes its two registry accesses without interruption
leaves the registry that `WebSocket` leaves. -/
theorem attachStep_sequential (lib : ssh.Lib) (frames : List ssh.Frame) (h : Handler)
    (sessionID : String) :
    (attachStep sessionID (attachStep sessionID h.sessions .beforeLoad).1
        (attachStep sessionID h.sessions .beforeLoad).2).1 =
      (h.WebSocket lib frames sessionID).1.sessions := by
  by_cases hid : sessionID = ""
  · simp [attachStep, Handler.WebSocket, hid]
  · cases hload : h.sessions.Load sessionID with
    | none =>
      rw [WebSocket_not_found lib frames h hid hload]
      simp [attachStep, hid, hload]
    | some entry =>
      rw [WebSocket_found lib frames h hid hload]
      simp [attachStep, hid, hload]

/-- C10 fails on the code: the lookup and the removal of `WebSocket` are two
separate registry accesses. On `sampleHandler`, two goroutines attach with "s1";
under the schedule lookup of the first, lookup of the second, removal by the
first, removal by the second, both obtain the entry of "s1". Under the schedule
that lets the first goroutine finish before the second starts, the second takes
the not-found branch. -/
theorem WebSocket_concurrent_double_claim :
    runAttachPair "s1" [false, true, false, true]
        { sessions := sampleHandler.sessions, first := .beforeLoad, second := .beforeLoad } =
      { sessions := sampleHandler.sessions.Delete "s1",
        first := .obtained (sampleEntry "s1" 1 0),
        second := .obtained (sampleEntry "s1" 1 0) } ∧
    runAttachPair "s1" [false, false, true, true]
        { sessions := sampleHandler.sessions, first := .beforeLoad, second := .beforeLoad } =
      { sessions := sampleHandler.sessions.Delete "s1",
        first := .obtained (sampleEntry "s1" 1 0),
        second := .notFound } := by
  constructor <;> decide

end handler

end QkSSH
